import Mathlib

/-!
Verification of the Commons photo-challenge vote-counting engine
(`photo_challenge_count_voting.py`).

The development shallowly embeds the data model and the operations of the
source: `parse_voting_page` (ledger parser), `validate_voters` (voter
classifier), `validate_votes` (vote-error cascade) and `count_votes`
(scoring / ranking).  Pandas dataframe columns become Lean functions of the
row index; a pandas `NaN` cell is `Option.none`; a Python
`UnboundLocalError` in the parser is modelled by an `Option.none` result of
the whole parse.
-/

namespace PhotoChallenge

/-- A parsed vote row of `vote_df`: columns `num`, `award`, `voter`,
`creator`, `line` (built in `parse_voting_page` as
`votes.append([num, int(award), voter, creator, line])`). -/
structure VoteRec where
  num : String
  award : Nat
  voter : String
  creator : String
  line : String
deriving DecidableEq, Inhabited

/-- The `vote_df.merge(voter_df[["voter", "error"]], on="voter", how="left")`
lookup: the error of the named voter in the voter table, `none` (pandas
`NaN`) when the voter does not appear.  `voter_df` has one row per unique
voter name, modelled as an association list. -/
def lookupVoter (m : List (String × Int)) (name : String) : Option Int :=
  (m.find? (fun p => p.1 == name)).map (fun p => p.2)

/-- Error column after the merge in `validate_votes` (line
`vote_df = vote_df.merge(voter_df[["voter", "error"]], on="voter", how="left")`):
the vote at index `i` carries its voter's error, `none` when the voter is
unknown to the table (in particular for the empty voter name). -/
def err1 (vs : List VoteRec) (m : List (String × Int)) (i : Nat) : Option Int :=
  match vs[i]? with
  | some v => lookupVoter m v.voter
  | none => none

/-- Error column after the amnesty pass
(`vote_df.loc[(vote_df["award"] == 0) & (vote_df["error"] > 0), 'error'] = 0`).
A pandas comparison with `NaN` is false, so a `none` cell is unchanged. -/
def err2 (vs : List VoteRec) (m : List (String × Int)) (i : Nat) : Option Int :=
  match vs[i]?, err1 vs m i with
  | some v, some e => if v.award = 0 ∧ 0 < e then some 0 else some e
  | _, _ => none

/-- The pandas `vote_df.duplicated(subset=["num", "voter"])` predicate at
row `i`: some strictly earlier row has the same `(num, voter)` key. -/
def isDupAt (vs : List VoteRec) (i : Nat) : Bool :=
  (List.range i).any (fun j =>
    match vs[j]?, vs[i]? with
    | some w, some v => w.num == v.num && w.voter == v.voter
    | _, _ => false)

/-- Error column after the duplicate-vote pass
(`vote_df.loc[vote_df.duplicated(subset=["num", "voter"]), 'error'] = 5`). -/
def err3 (vs : List VoteRec) (m : List (String × Int)) (i : Nat) : Option Int :=
  if isDupAt vs i then some 5 else err2 vs m i

/-- Error column after the unsigned-vote pass
(`vote_df.loc[vote_df["voter"]=='', 'error'] = 6`). -/
def err4 (vs : List VoteRec) (m : List (String × Int)) (i : Nat) : Option Int :=
  match vs[i]? with
  | some v => if v.voter = "" then some 6 else err3 vs m i
  | none => none

/-- Error column after the self-vote pass
(`vote_df.loc[vote_df["voter"]==vote_df["creator"], 'error'] = 7`). -/
def err5 (vs : List VoteRec) (m : List (String × Int)) (i : Nat) : Option Int :=
  match vs[i]? with
  | some v => if v.voter = v.creator then some 7 else err4 vs m i
  | none => none

/-- `mask1 = (vote_df["award"] > 0) & (vote_df["error"] == 0)` at row `i`
(the `NaN == 0` comparison is false in pandas). -/
def mask1 (vs : List VoteRec) (m : List (String × Int)) (i : Nat) : Bool :=
  match vs[i]? with
  | some v => decide (0 < v.award) && decide (err5 vs m i = some 0)
  | none => false

/-- `mask2 = vote_df[mask1].duplicated(subset=["award", "voter"], keep=False)`
at a row `i` of the masked frame: some other `mask1` row shares the
`(award, voter)` key. -/
def multiPeer (vs : List VoteRec) (m : List (String × Int)) (i : Nat) : Bool :=
  (List.range vs.length).any (fun j =>
    decide (j ≠ i) && mask1 vs m j &&
      match vs[j]?, vs[i]? with
      | some w, some v => w.award == v.award && w.voter == v.voter
      | _, _ => false)

/-- Final error column of `validate_votes`
(`vote_df.loc[mask1 & mask2, 'error'] = 8` applied after the five previous
passes). -/
def voteError (vs : List VoteRec) (m : List (String × Int)) (i : Nat) : Option Int :=
  if mask1 vs m i && multiPeer vs m i then some 8 else err5 vs m i

/-- A validated vote: a `vote_df` row together with its final `error`
column value. -/
structure CVote extends VoteRec where
  error : Option Int
deriving DecidableEq, Inhabited

/-- The dataframe returned by `validate_votes`: every input row with its
final error cell. -/
def validate_votes (vs : List VoteRec) (m : List (String × Int)) : List CVote :=
  (List.range vs.length).filterMap (fun i =>
    match vs[i]? with
    | some v => some { toVoteRec := v, error := voteError vs m i }
    | none => none)

/-- A row of `file_df` as built by `parse_voting_page`
(`files.append([num, fname, title, creator])`). -/
structure FileRec where
  num : String
  file_name : String
  title : String
  creator : String
deriving DecidableEq, Inhabited

/-- The vote rows kept by the scoring filter
`votes = vote_df[vote_df["error"] >= 0]` in `count_votes` (a `NaN` cell
compares false). -/
def countedVotes (cvs : List CVote) : List CVote :=
  cvs.filter (fun v => match v.error with | some e => decide (0 ≤ e) | none => false)

/-- The merged `score` column before `fillna`:
`votes.groupby("num")["award"].sum()` left-merged onto `file_df`, so `none`
when no counted vote references the entry number. -/
def rawScore (cvs : List CVote) (num : String) : Option Int :=
  let g := (countedVotes cvs).filter (fun v => v.num == num)
  if g.isEmpty then none else some (g.foldl (fun s v => s + (v.award : Int)) 0)

/-- The merged `support` column before `fillna`:
`votes.groupby("num")["award"].count()` left-merged onto `file_df`. -/
def rawSupport (cvs : List CVote) (num : String) : Option Nat :=
  let g := (countedVotes cvs).filter (fun v => v.num == num)
  if g.isEmpty then none else some g.length

/-- Maximum of a list of naturals, `none` on the empty list (the pandas
column `.max()` with all-`NaN` giving `NaN`). -/
def listMaxNat : List Nat → Option Nat
  | [] => none
  | a :: l =>
    match listMaxNat l with
    | none => some a
    | some b => some (max a b)

/-- `max_support = file_df['support'].max() + 1` without the `+ 1`: the
maximum of the present `support` cells of `file_df`. -/
def maxSupport (cvs : List CVote) (files : List FileRec) : Option Nat :=
  listMaxNat (files.filterMap (fun f => rawSupport cvs f.num))

/-- The tie-break column
`file_df['score2'] = file_df['score'] + file_df['support']/max_support`
(with `max_support = file_df['support'].max() + 1`); `NaN` cells propagate. -/
def score2 (cvs : List CVote) (files : List FileRec) (f : FileRec) : Option ℚ :=
  match rawScore cvs f.num, rawSupport cvs f.num, maxSupport cvs files with
  | some s, some c, some mx => some ((s : ℚ) + (c : ℚ) / ((mx : ℚ) + 1))
  | _, _, _ => none

/-- Whether entry `g`'s tie-break key is strictly greater than `q`
(false when `g` has no key, as a `NaN` comparison). -/
def keyGT (cvs : List CVote) (files : List FileRec) (q : ℚ) (g : FileRec) : Bool :=
  match score2 cvs files g with
  | some r => decide (q < r)
  | none => false

/-- Whether entry `g`'s tie-break key equals `q`. -/
def keyEQ (cvs : List CVote) (files : List FileRec) (q : ℚ) (g : FileRec) : Bool :=
  decide (score2 cvs files g = some q)

/-- The `rank` column:
`file_df['score2'].rank(method="min", ascending=False)` followed by
`fillna(0)` — one plus the number of entries with a strictly greater key,
and `0` for an entry whose key is `NaN`. -/
def rankOf (cvs : List CVote) (files : List FileRec) (f : FileRec) : Nat :=
  match score2 cvs files f with
  | some q => 1 + files.countP (keyGT cvs files q)
  | none => 0

/-- A row of the dataframe returned by `count_votes`: the `file_df` columns
followed by `score`, `support`, `score2` and `rank` (the column layout
unpacked by `create_result_page`). -/
structure ScoredEntry extends FileRec where
  score : Int
  support : Nat
  score2 : Option ℚ
  rank : Nat
deriving DecidableEq, Inhabited

/-- Descending comparison on tie-break keys used by
`sort_values(by="score2", ascending=False)`; `NaN` keys sort last. -/
def keyGE (a b : Option ℚ) : Bool :=
  match a, b with
  | some x, some y => decide (y ≤ x)
  | some _, none => true
  | none, none => true
  | none, some _ => false

/-- Insert an entry into a list sorted by descending key. -/
def insertDesc (e : ScoredEntry) : List ScoredEntry → List ScoredEntry
  | [] => [e]
  | x :: xs => if keyGE e.score2 x.score2 then e :: x :: xs else x :: insertDesc e xs

/-- Sort scored entries by descending tie-break key
(`file_df.sort_values(by="score2", ascending=False)`). -/
def sortDesc : List ScoredEntry → List ScoredEntry
  | [] => []
  | x :: xs => insertDesc x (sortDesc xs)

/-- The `count_votes` scoring function: filter rows with `error >= 0`,
aggregate per entry, left-merge onto `file_df`, build the tie-break key,
sort descending, rank with `method="min"` and fill the missing `score`,
`support` and `rank` cells with `0`. -/
def count_votes (cvs : List CVote) (files : List FileRec) : List ScoredEntry :=
  sortDesc (files.map (fun f =>
    { toFileRec := f
      score := (rawScore cvs f.num).getD 0
      support := (rawSupport cvs f.num).getD 0
      score2 := score2 cvs files f
      rank := rankOf cvs files f }))

/-- Python `str.strip()`: remove leading and trailing whitespace. -/
def trimChars (l : List Char) : List Char :=
  ((l.dropWhile Char.isWhitespace).reverse.dropWhile Char.isWhitespace).reverse

/-- Python `pat in line` substring test. -/
def containsSeq (pat : List Char) : List Char → Bool
  | [] => pat.isEmpty
  | c :: rest => pat.isPrefixOf (c :: rest) || containsSeq pat rest

/-- Python `str.replace(pat, repl)`: replace every non-overlapping
occurrence, scanning left to right (our patterns are never empty). -/
def replaceSeq (pat repl : List Char) (l : List Char) : List Char :=
  if pat.isEmpty then l
  else
    match l with
    | [] => []
    | c :: rest =>
      if pat.isPrefixOf (c :: rest) then repl ++ replaceSeq pat repl (rest.drop (pat.length - 1))
      else c :: replaceSeq pat repl rest
termination_by l.length
decreasing_by
  · simp only [List.length_cons, List.length_drop]
    omega
  · simp only [List.length_cons]
    omega

/-- Python `str.split("|")`: split on the pipe character, never empty. -/
def splitPipe : List Char → List (List Char)
  | [] => [[]]
  | c :: rest =>
    match splitPipe rest with
    | [] => [[c]]
    | h :: t => if c = '|' then [] :: h :: t else (c :: h) :: t

/-- Leftmost match of the regex `===(\d*)\.`: at the first position where
`===` is followed by a (maximal, possibly empty) digit run and then a
literal dot, capture the digit run. -/
def findHeaderNum : List Char → Option (List Char)
  | [] => none
  | c :: rest =>
    if ("===".toList).isPrefixOf (c :: rest) then
      let after := (c :: rest).drop 3
      match after.dropWhile Char.isDigit with
      | '.' :: _ => some (after.takeWhile Char.isDigit)
      | _ => findHeaderNum rest
    else findHeaderNum rest

/-- Leftmost match of a regex of shape `pat([^stops]+)`: find `pat`, then
capture the maximal nonempty run of characters outside `stops`; with an
empty run the position does not match and the scan continues. -/
def findCaptureAfter (pat : List Char) (stops : List Char) : List Char → Option (List Char)
  | [] => none
  | c :: rest =>
    if pat.isPrefixOf (c :: rest) then
      let cap := ((c :: rest).drop pat.length).takeWhile (fun ch => !stops.contains ch)
      if cap.isEmpty then findCaptureAfter pat stops rest else some cap
    else findCaptureAfter pat stops rest

/-- The localized user-link spellings of the voter regex
`\[\[(?:[Uu]ser|[Bb]enutzer|[Uu]suario):([^|\]]+)` (with the trailing
colon). -/
def userWords : List (List Char) :=
  ["User:", "user:", "Benutzer:", "benutzer:", "Usuario:", "usuario:"].map String.toList

/-- Leftmost match of the voter regex: `[[`, one of the localized user
words, and a nonempty capture of characters other than `|` and `]`. -/
def findVoterCapture : List Char → Option (List Char)
  | [] => none
  | c :: rest =>
    if ("[[".toList).isPrefixOf (c :: rest) then
      match userWords.find? (fun w => w.isPrefixOf ((c :: rest).drop 2)) with
      | some w =>
        let cap := (((c :: rest).drop 2).drop w.length).takeWhile (fun ch => ch ≠ '|' && ch ≠ ']')
        if cap.isEmpty then findVoterCapture rest else some cap
      | none => findVoterCapture rest
    else findVoterCapture rest

/-- Leftmost match of the award regex `{{(\d)/3\*}}`, capturing the digit. -/
def findAward : List Char → Option Char
  | [] => none
  | c :: rest =>
    if ("\x7b\x7b".toList).isPrefixOf (c :: rest) then
      match (c :: rest).drop 2 with
      | d :: tail =>
        if d.isDigit && ("/3*\x7d\x7d".toList).isPrefixOf tail then some d else findAward rest
      | [] => findAward rest
    else findAward rest

/-- `substr(r"===(\d*)\.", line)`: the stripped capture, `''` on no match. -/
def substrHeaderNum (l : List Char) : String :=
  String.mk (trimChars ((findHeaderNum l).getD []))

/-- `substr(r"\[\[User:([^|]+)", line)` of the creator branch. -/
def substrCreator (l : List Char) : String :=
  String.mk (trimChars ((findCaptureAfter ("[[User:".toList) ['|'] l).getD []))

/-- `substr(r"\[\[Special:Contributions/([^|\]]+)", line)`. -/
def substrSpecial (l : List Char) : String :=
  String.mk (trimChars ((findCaptureAfter ("[[Special:Contributions/".toList) ['|', ']'] l).getD []))

/-- `substr(r"\[\[(?:[Uu]ser|[Bb]enutzer|[Uu]suario):([^|\]]+)", line)`. -/
def substrVoter (l : List Char) : String :=
  String.mk (trimChars ((findVoterCapture l).getD []))

/-- The signature placeholder stripped from vote lines before storing them
(`line.replace('<span class="signature-talk">{{int:Talkpagelinktext}}</span>','')`). -/
def sigSpan : List Char :=
  "<span class=\"signature-talk\">\x7b\x7bint:Talkpagelinktext\x7d\x7d</span>".toList

/-- The local variables of the `parse_voting_page` loop (`num`, `fname`,
`title`, `creator`); `none` models a Python variable not yet assigned, so
that reading it raises `UnboundLocalError`. -/
structure PContext where
  num : Option String
  fname : Option String
  title : Option String
  creator : Option String
deriving DecidableEq

/-- State of the `parse_voting_page` loop: the local variables and the
accumulated `files` and `votes` lists. -/
structure ParseState where
  ctx : PContext
  files : List FileRec
  votes : List VoteRec
deriving DecidableEq

/-- Initial parser state: no local variable assigned, empty accumulators. -/
def initState : ParseState := ⟨⟨none, none, none, none⟩, [], []⟩

/-- The branch chain of the `parse_voting_page` loop body after the
section-marker branch, on the stripped line `lc`: the `[[File:` branch,
the creator branch and the vote branch, each ending in `continue`.
Reading an unassigned local returns `none` (a raised `UnboundLocalError`). -/
def parseStepCore (st1 : ParseState) (lc : List Char) : Option ParseState :=
  if containsSeq ("[[File:".toList) lc then
    let part := splitPipe (replaceSeq ("[".toList) ("|".toList)
      (replaceSeq ("[[File:".toList) [] lc))
    let fname := String.mk (trimChars (part.headD []))
    let newTitle :=
      if 5 ≤ part.length then some (String.mk (trimChars ((part.get? 4).getD [])))
      else st1.ctx.title
    some { st1 with ctx := { st1.ctx with fname := some fname, title := newTitle } }
  else if ("<!-- '''C".toList).isPrefixOf lc || ("'''C".toList).isPrefixOf lc then
    let creator := substrCreator lc
    match st1.ctx.num, st1.ctx.fname, st1.ctx.title with
    | some n, some fn, some t =>
      some { st1 with ctx := { st1.ctx with creator := some creator },
                      files := st1.files ++ [⟨n, fn, t, creator⟩] }
    | _, _, _ => none
  else if containsSeq ("*\x7d\x7d".toList) lc then
    match st1.ctx.fname with
    | none => none
    | some fn =>
      if fn = "Sample-image.svg" then some st1
      else
        let voter :=
          if containsSeq ("[[Special:Contributions/".toList) lc then substrSpecial lc
          else substrVoter lc
        let lineStr := String.mk (replaceSeq sigSpan [] lc)
        match findAward lc with
        | none => some st1
        | some d =>
          match st1.ctx.num, st1.ctx.creator with
          | some n, some cr =>
            some { st1 with votes := st1.votes ++ [⟨n, d.toNat - '0'.toNat, voter, cr, lineStr⟩] }
          | _, _ => none
  else some st1

/-- One iteration of the `parse_voting_page` loop: strip the line, reset
the entry context on a `===` section marker (which does not `continue`),
then run the remaining branches. -/
def parseStep (st : ParseState) (rawLine : String) : Option ParseState :=
  let lc := trimChars rawLine.toList
  let st1 :=
    if ("===".toList).isPrefixOf lc then
      { st with ctx := ⟨some (substrHeaderNum lc), some "", some "", some ""⟩ }
    else st
  parseStepCore st1 lc

/-- `parse_voting_page` on the document's line list: fold the loop body
over the lines; `none` models the function raising `UnboundLocalError`. -/
def parse_voting_page (wiki_text : List String) : Option (List FileRec × List VoteRec) :=
  (wiki_text.foldlM parseStep initState).map (fun st => (st.files, st.votes))

/-- A stripped line entering the creator branch of the loop. -/
def isCreatorL (lc : List Char) : Bool :=
  ("<!-- '''C".toList).isPrefixOf lc || ("'''C".toList).isPrefixOf lc

/-- A stripped line containing the award-template close marker `*}}`. -/
def hasVoteMarker (lc : List Char) : Bool :=
  containsSeq ("*\x7d\x7d".toList) lc

/-- All four loop locals are assigned. -/
def ctxFull (c : PContext) : Prop :=
  c.num.isSome ∧ c.fname.isSome ∧ c.title.isSome ∧ c.creator.isSome

/-- The identity-service data consulted for one voter in
`validate_voters`: `user.editCount()`, `user.isRegistered()`,
`int((start_date - reg_date).days)` (the date subtraction is abstracted as
the resulting day count), `user.is_blocked()` and the page titles of
`user.contributions()`. -/
structure UserInfo where
  editCount : Int
  isRegistered : Bool
  daysActive : Int
  isBlocked : Bool
  contributions : List String
deriving DecidableEq

/-- One row of the `voter_df` produced by `validate_voters` after the
`fillna` calls: the `error`, `note` and `edit_count` columns. -/
structure VoterVerdict where
  error : Int
  note : Int
  editCount : Int
deriving DecidableEq

/-- `re.fullmatch(r"[0-9.]+", voter)`: a nonempty name made only of digits
and dots. -/
def isIPString (s : String) : Bool :=
  !s.toList.isEmpty && s.toList.all (fun c => c.isDigit || c = '.')

/-- Python `str.startswith` by character lists. -/
def strStarts (pre s : String) : Bool :=
  pre.toList.isPrefixOf s.toList

/-- The exempt-new-contributor scan of `validate_voters`: some contributed
page satisfies
`page_name.startswith('Commons:Photo challenge/') and page_name.count('/')==1`. -/
def hasDirectSubmission (contribs : List String) : Bool :=
  contribs.any (fun p => strStarts "Commons:Photo challenge/" p && p.toList.count '/' == 1)

/-- The `validate_voters` per-row classification.  An IP-literal name is
marked `error = 1` before the identity lookup (its `edit_count` cell stays
`NaN` and is filled with `-1`); an unregistered user is marked `error = 2`;
otherwise the new-account (`days_active < 10`, code 3) and low-edit
(`edit_count < 50`, code 4) checks write — in that order — into the `note`
column when the scan of the user's contributions finds a direct challenge
submission, else into the `error` column, on top of a `note` of 1 for a
blocked user. -/
def validateVoter (name : String) (u : UserInfo) : VoterVerdict :=
  if isIPString name then ⟨1, 0, -1⟩
  else if !u.isRegistered then ⟨2, 0, u.editCount⟩
  else
    let exempt := (decide (u.daysActive < 10) || decide (u.editCount < 50)) &&
      hasDirectSubmission u.contributions
    let v0 : VoterVerdict := ⟨0, if u.isBlocked then 1 else 0, u.editCount⟩
    let v1 :=
      if u.daysActive < 10 then
        (if exempt then { v0 with note := 3 } else { v0 with error := 3 })
      else v0
    if u.editCount < 50 then
      (if exempt then { v1 with note := 4 } else { v1 with error := 4 })
    else v1

/-! Concrete round data used to evaluate the engine at specific inputs. -/

/-- The single entry of the worked §8 round: entry 1 created by Alice. -/
def exFiles : List FileRec := [⟨"1", "Photo.jpg", "", "Alice"⟩]

/-- The votes of the worked §8 round: Bob awards 3 twice (a duplicate) and
Alice awards 1 to her own entry (a self-vote). -/
def exVotes : List VoteRec :=
  [⟨"1", 3, "Bob", "Alice", ""⟩, ⟨"1", 3, "Bob", "Alice", ""⟩, ⟨"1", 1, "Alice", "Alice", ""⟩]

/-- Voter table of the worked round: both voters fully eligible. -/
def exVoterTab : List (String × Int) := [("Bob", 0), ("Alice", 0)]

/-- The scored output of the worked §8 round. -/
def exScored : List ScoredEntry := count_votes (validate_votes exVotes exVoterTab) exFiles

/-- Three entries used for the tie-ranking round. -/
def tieFiles : List FileRec := [⟨"1", "a", "", "A"⟩, ⟨"2", "b", "", "B"⟩, ⟨"3", "c", "", "C"⟩]

/-- Validated votes of the tie-ranking round: entries 1 and 2 tie at
score 5 / support 2, entry 3 scores 4 with support 2; all votes accepted. -/
def tieCvs : List CVote :=
  [⟨⟨"1", 3, "v1", "A", ""⟩, some 0⟩, ⟨⟨"1", 2, "v2", "A", ""⟩, some 0⟩,
   ⟨⟨"2", 3, "v3", "B", ""⟩, some 0⟩, ⟨⟨"2", 2, "v4", "B", ""⟩, some 0⟩,
   ⟨⟨"3", 3, "v5", "C", ""⟩, some 0⟩, ⟨⟨"3", 1, "v6", "C", ""⟩, some 0⟩]

/-- The scored output of the tie-ranking round, sorted by key. -/
def tieScored : List ScoredEntry := count_votes tieCvs tieFiles

/-- Two entries, the second of which receives no vote at all. -/
def noVoteFiles : List FileRec := [⟨"1", "a", "", "A"⟩, ⟨"2", "b", "", "B"⟩]

/-- A single accepted vote on entry 1 of `noVoteFiles`. -/
def noVoteCvs : List CVote := [⟨⟨"1", 3, "Bob", "A", ""⟩, some 0⟩]

/-- The scored output of the `noVoteFiles` round. -/
def noVoteScored : List ScoredEntry := count_votes noVoteCvs noVoteFiles

/-- Three entries for the monotonicity round. -/
def monFiles : List FileRec := [⟨"1", "a", "", "A"⟩, ⟨"2", "b", "", "B"⟩, ⟨"3", "c", "", "C"⟩]

/-- Validated votes of the monotonicity round: entry 1 scores 3 with
support 3, entry 2 scores 3 with support 1, entry 3 scores 1 with
support 1. -/
def monCvs : List CVote :=
  [⟨⟨"1", 3, "v1", "A", ""⟩, some 0⟩, ⟨⟨"1", 0, "v2", "A", ""⟩, some 0⟩,
   ⟨⟨"1", 0, "v3", "A", ""⟩, some 0⟩, ⟨⟨"2", 3, "v4", "B", ""⟩, some 0⟩,
   ⟨⟨"3", 1, "v5", "C", ""⟩, some 0⟩]

/-- A document whose first line is a creator line, before any `===`
section header. -/
def creatorFirstDoc : List String := ["'''Creator: [[User:Alice|A]]'''"]

/-- A well-formed document: header, file, creator and vote lines in the
usual order. -/
def normalDoc : List String :=
  ["===1. ===",
   "[[File:Img.jpg|x|y|z|My title]]",
   "<!-- '''Creator:''' [[User:Alice|Alice]] -->",
   "# \x7b\x7b3/3*\x7d\x7d nice [[User:Bob|Bob]]"]

/-- Identity data of a new contributor with few edits and no challenge
submission. -/
def newUserPlain : UserInfo := ⟨10, true, 5, false, ["User talk:Someone"]⟩

/-- Identity data of a new contributor with few edits who entered the
challenge with a picture. -/
def newUserExempt : UserInfo := ⟨10, true, 5, false, ["Commons:Photo challenge/2025 - August - Bark"]⟩

/-- Votes for the amnesty example: an award-0 praise by a disqualified
voter. -/
def amnestyVotes : List VoteRec := [⟨"1", 0, "Newbie", "Alice", ""⟩]

/-- Voter table marking `Newbie` with the low-edit disqualification. -/
def amnestyTab : List (String × Int) := [("Newbie", 4)]

/-- Votes for the multiple-placement example: one voter casts two
first-place votes on different entries plus a valid second-place vote. -/
def multiVotes : List VoteRec :=
  [⟨"1", 3, "Bob", "A", ""⟩, ⟨"2", 3, "Bob", "C", ""⟩, ⟨"3", 2, "Bob", "D", ""⟩]

/-- Voter table for the multiple-placement and duplicate examples. -/
def multiTab : List (String × Int) := [("Bob", 0)]

/-- Votes for the duplicate example: Bob votes twice on entry 1. -/
def dupVotes : List VoteRec := [⟨"1", 3, "Bob", "Alice", ""⟩, ⟨"1", 3, "Bob", "Alice", ""⟩]

/-- A self-vote: Carol votes for her own entry. -/
def selfVotes : List VoteRec := [⟨"1", 2, "Carol", "Carol", ""⟩]

/-- An unsigned vote on an entry whose creator line was unparseable: both
the voter and the creator are the empty string. -/
def unsignedVotes : List VoteRec := [⟨"1", 3, "", "", ""⟩]

/-! Theorems. -/

/-- C9: a vote whose voter equals the referenced entry's creator (both
non-empty) ends the complete cascade with error `SELF_VOTE` (7): the
self-vote pass overwrites any earlier code and the multiple-placement pass
never touches a vote whose error is nonzero. -/
theorem self_vote_invariant (vs : List VoteRec) (m : List (String × Int)) (i : Nat)
    (vi : VoteRec) (hv : vs[i]? = some vi) (hc : vi.voter = vi.creator)
    (hne : vi.voter ≠ "") : voteError vs m i = some 7 := by
  have h5 : err5 vs m i = some 7 := by simp [err5, hv, hc]
  simp [voteError, mask1, hv, h5]

/-- Witness for C9 at the concrete self-vote round. -/
theorem self_vote_invariant_witness : voteError selfVotes multiTab 0 = some 7 :=
  self_vote_invariant selfVotes multiTab 0 ⟨"1", 2, "Carol", "Carol", ""⟩ rfl rfl (by decide)

/-- C10: a vote with empty voter on an entry with empty creator ends with
error `SELF_VOTE` (7), not `UNSIGNED` (6): the self-vote pass compares the
two empty strings equal and overwrites the unsigned code. -/
theorem unsigned_empty_creator_self_vote (vs : List VoteRec) (m : List (String × Int))
    (i : Nat) (vi : VoteRec) (hv : vs[i]? = some vi) (hvo : vi.voter = "")
    (hcr : vi.creator = "") :
    voteError vs m i = some 7 ∧ voteError vs m i ≠ some 6 := by
  have h5 : err5 vs m i = some 7 := by simp [err5, hv, hvo.trans hcr.symm]
  have h : voteError vs m i = some 7 := by simp [voteError, mask1, hv, h5]
  exact ⟨h, by simp [h]⟩

/-- Witness for C10 at the concrete unsigned-vote round. -/
theorem unsigned_empty_creator_self_vote_witness :
    voteError unsignedVotes multiTab 0 = some 7 ∧ voteError unsignedVotes multiTab 0 ≠ some 6 :=
  unsigned_empty_creator_self_vote unsignedVotes multiTab 0 ⟨"1", 3, "", "", ""⟩ rfl rfl rfl

/-- C6: an award-0 vote never ends with a voter-inherited disqualification
(1–4) nor with `MULTI_PLACEMENT` (8); the amnesty pass clears a positive
copied error to 0. -/
theorem award_zero_amnesty_invariant (vs : List VoteRec) (m : List (String × Int))
    (i : Nat) (vi : VoteRec) (hv : vs[i]? = some vi) (h0 : vi.award = 0) :
    (voteError vs m i ≠ some 1 ∧ voteError vs m i ≠ some 2 ∧ voteError vs m i ≠ some 3 ∧
     voteError vs m i ≠ some 4 ∧ voteError vs m i ≠ some 8) ∧
    (∀ e : Int, err1 vs m i = some e → 0 < e → err2 vs m i = some 0) := by
  have h2 : err2 vs m i = none ∨ ∃ e : Int, err2 vs m i = some e ∧ e ≤ 0 := by
    unfold err2
    rw [hv]
    cases h1 : err1 vs m i with
    | none => exact Or.inl rfl
    | some e =>
      by_cases he : 0 < e
      · exact Or.inr ⟨0, by simp [h0, he], le_refl 0⟩
      · exact Or.inr ⟨e, by simp [h0, he], le_of_not_lt he⟩
  have hm : mask1 vs m i = false := by simp [mask1, hv, h0]
  have hve : voteError vs m i = err5 vs m i := by simp [voteError, hm]
  have h5 : err5 vs m i = some 7 ∨ err5 vs m i = some 6 ∨ err5 vs m i = some 5 ∨
      err5 vs m i = err2 vs m i := by
    by_cases hsc : vi.voter = vi.creator
    · exact Or.inl (by simp [err5, hv, hsc])
    · by_cases hu : vi.voter = ""
      · have hsc' : ¬("" = vi.creator) := by rw [← hu]; exact hsc
        exact Or.inr (Or.inl (by simp [err5, err4, hv, hsc, hu, hsc']))
      · by_cases hd : isDupAt vs i = true
        · exact Or.inr (Or.inr (Or.inl (by simp [err5, err4, err3, hv, hsc, hu, hd])))
        · exact Or.inr (Or.inr (Or.inr (by
            simp [err5, err4, err3, hv, hsc, hu, Bool.eq_false_iff.mpr hd])))
  constructor
  · rw [hve]
    rcases h5 with h | h | h | h
    · rw [h]; refine ⟨by simp, by simp, by simp, by simp, by simp⟩
    · rw [h]; refine ⟨by simp, by simp, by simp, by simp, by simp⟩
    · rw [h]; refine ⟨by simp, by simp, by simp, by simp, by simp⟩
    · rw [h]
      rcases h2 with h2 | ⟨e, h2, he⟩
      · rw [h2]; refine ⟨by simp, by simp, by simp, by simp, by simp⟩
      · rw [h2]
        refine ⟨?_, ?_, ?_, ?_, ?_⟩ <;> · simp only [ne_eq, Option.some.injEq]; omega
  · intro e h1 hpos
    simp [err2, hv, h1, h0, hpos]

/-- Witness for C6 at the concrete amnesty round: the praise by the
low-edit voter is not disqualified, its copied error is cleared. -/
theorem award_zero_amnesty_invariant_witness :
    voteError amnestyVotes amnestyTab 0 ≠ some 4 ∧ err2 amnestyVotes amnestyTab 0 = some 0 := by
  have h := award_zero_amnesty_invariant amnestyVotes amnestyTab 0
    ⟨"1", 0, "Newbie", "Alice", ""⟩ rfl rfl
  exact ⟨h.1.2.2.2.1, h.2 4 (by decide) (by decide)⟩

/-- C5: a registered, non-IP voter with `days_active < 10` and
`edit_count < 50` ends with `error = LOW_EDITS` (4, the last check
overwriting the new-account code) when they have no direct
challenge-submission page, and with `note = 4` and `error = 0` when they
do. -/
theorem validate_voters_low_edits_overwrites (name : String) (u : UserInfo)
    (hip : isIPString name = false) (hreg : u.isRegistered = true)
    (hd : u.daysActive < 10) (he : u.editCount < 50) :
    (hasDirectSubmission u.contributions = false → (validateVoter name u).error = 4) ∧
    (hasDirectSubmission u.contributions = true →
      (validateVoter name u).error = 0 ∧ (validateVoter name u).note = 4) := by
  constructor <;> intro hds <;> simp [validateVoter, hip, hreg, hd, he, hds]

/-- Witness for C5 at the two concrete new users. -/
theorem validate_voters_low_edits_overwrites_witness :
    (validateVoter "Newbie" newUserPlain).error = 4 ∧
    (validateVoter "Newbie" newUserExempt).error = 0 ∧
    (validateVoter "Newbie" newUserExempt).note = 4 := by
  refine ⟨(validate_voters_low_edits_overwrites "Newbie" newUserPlain
      (by decide) (by decide) (by decide) (by decide)).1 (by decide), ?_⟩
  exact (validate_voters_low_edits_overwrites "Newbie" newUserExempt
      (by decide) (by decide) (by decide) (by decide)).2 (by decide)

/-- Helper: the merged error of a vote row is its voter's table lookup. -/
theorem err1_eq (vs : List VoteRec) (m : List (String × Int)) (i : Nat) (vi : VoteRec)
    (hv : vs[i]? = some vi) : err1 vs m i = lookupVoter m vi.voter := by
  simp [err1, hv]

/-- Helper: the amnesty-pass cell when the merged cell is present. -/
theorem err2_some (vs : List VoteRec) (m : List (String × Int)) (i : Nat) (vi : VoteRec)
    (hv : vs[i]? = some vi) (e : Int) (h : err1 vs m i = some e) :
    err2 vs m i = if vi.award = 0 ∧ 0 < e then some 0 else some e := by
  simp [err2, hv, h]

/-- Helper: the amnesty-pass cell when the merged cell is missing. -/
theorem err2_none (vs : List VoteRec) (m : List (String × Int)) (i : Nat) (vi : VoteRec)
    (hv : vs[i]? = some vi) (h : err1 vs m i = none) : err2 vs m i = none := by
  simp [err2, hv, h]

/-- Helper: a successful voter lookup comes from a table row. -/
theorem lookupVoter_mem (m : List (String × Int)) (name : String) (e : Int)
    (h : lookupVoter m name = some e) : ∃ p ∈ m, p.2 = e := by
  unfold lookupVoter at h
  rcases Option.map_eq_some'.mp h with ⟨p, hfind, hp2⟩
  exact ⟨p, List.mem_of_find?_eq_some hfind, hp2⟩

/-- C7: the multiple-placement pass, run last, leaves any vote with a
nonzero (or missing) error untouched, and marks `MULTI_PLACEMENT` (8)
exactly on the votes with `award > 0` and error still 0 that share their
`(award, voter)` key with another such vote.  The voter table carries the
codes 0–4 produced by `validate_voters`. -/
theorem multi_placement_pass_spec (vs : List VoteRec) (m : List (String × Int))
    (i : Nat) (vi : VoteRec) (hv : vs[i]? = some vi)
    (hmtab : ∀ p ∈ m, 0 ≤ p.2 ∧ p.2 ≤ 4) :
    (err5 vs m i ≠ some 0 → voteError vs m i = err5 vs m i) ∧
    (voteError vs m i = some 8 ↔
      (err5 vs m i = some 0 ∧ 0 < vi.award ∧
        ∃ j vj, j ≠ i ∧ vs[j]? = some vj ∧ err5 vs m j = some 0 ∧ 0 < vj.award ∧
          vj.award = vi.award ∧ vj.voter = vi.voter)) := by
  constructor
  · intro h
    have hm : mask1 vs m i = false := by simp [mask1, hv, h]
    simp [voteError, hm]
  · constructor
    · intro h8
      unfold voteError at h8
      split at h8
      · rename_i hcond
        simp only [Bool.and_eq_true] at hcond
        rcases hcond with ⟨hm1, hmp⟩
        rw [mask1, hv] at hm1
        simp only [Bool.and_eq_true, decide_eq_true_eq] at hm1
        rcases List.any_eq_true.mp hmp with ⟨j, hjmem, hj⟩
        have hjlt : j < vs.length := List.mem_range.mp hjmem
        have hvj : vs[j]? = some vs[j] := List.getElem?_eq_getElem hjlt
        rw [hvj, hv] at hj
        simp only [Bool.and_eq_true, decide_eq_true_eq, beq_iff_eq] at hj
        rcases hj with ⟨⟨hjne, hjm1⟩, hjaw, hjvo⟩
        rw [mask1, hvj] at hjm1
        simp only [Bool.and_eq_true, decide_eq_true_eq] at hjm1
        exact ⟨hm1.2, hm1.1, j, vs[j], hjne, hvj, hjm1.2, hjm1.1, hjaw, hjvo⟩
      · exfalso
        have h58 : err5 vs m i = some 8 := h8
        by_cases hsc : vi.voter = vi.creator
        · simp [err5, hv, hsc] at h58
        · by_cases hu : vi.voter = ""
          · have hsc' : ¬("" = vi.creator) := by rw [← hu]; exact hsc
            simp [err5, err4, hv, hsc, hu, hsc'] at h58
          · by_cases hd : isDupAt vs i = true
            · simp [err5, err4, err3, hv, hsc, hu, hd] at h58
            · have h28 : err2 vs m i = some 8 := by
                simpa [err5, err4, err3, hv, hsc, hu, hd] using h58
              rcases h1 : err1 vs m i with _ | e
              · rw [err2_none vs m i vi hv h1] at h28
                simp at h28
              · rw [err2_some vs m i vi hv e h1] at h28
                have he8 : e = 8 := by
                  split at h28 <;> simp_all
                rw [err1_eq vs m i vi hv] at h1
                rcases lookupVoter_mem m vi.voter e h1 with ⟨p, hpm, hp2⟩
                have := (hmtab p hpm).2
                omega
    · rintro ⟨h50, haw, j, vj, hji, hvj, h5j, hawj, heqa, heqv⟩
      have hjlt : j < vs.length := by
        rcases List.getElem?_eq_some.mp hvj with ⟨h, _⟩
        exact h
      have hm1 : mask1 vs m i = true := by simp [mask1, hv, haw, h50]
      have hm1j : mask1 vs m j = true := by simp [mask1, hvj, hawj, h5j]
      have hmp : multiPeer vs m i = true := by
        refine List.any_eq_true.mpr ⟨j, List.mem_range.mpr hjlt, ?_⟩
        rw [hvj, hv]
        simp [hji, hm1j, heqa, heqv]
      simp [voteError, hm1, hmp]

/-- Witness for C7: Bob's two first-place votes are both marked 8, and a
vote whose error is already nonzero keeps that error through the pass. -/
theorem multi_placement_pass_spec_witness :
    voteError multiVotes multiTab 0 = some 8 ∧
    voteError dupVotes multiTab 1 = err5 dupVotes multiTab 1 := by
  constructor
  · exact (multi_placement_pass_spec multiVotes multiTab 0 ⟨"1", 3, "Bob", "A", ""⟩
      rfl (by decide)).2.mpr
      ⟨by decide, by decide, 1, ⟨"2", 3, "Bob", "C", ""⟩, by decide, rfl,
        by decide, by decide, rfl, rfl⟩
  · exact (multi_placement_pass_spec dupVotes multiTab 1 ⟨"1", 3, "Bob", "Alice", ""⟩
      rfl (by decide)).1 (by decide)

/-- C8: among votes sharing an `(entry_number, voter)` key, every vote
after the first (document order) is assigned `DUPLICATE_VOTE` (5) by the
duplicate pass and — when neither unsigned nor a self-vote — keeps it to
the end; the first of the group, absent any other disqualification,
retains error 0. -/
theorem duplicate_vote_invariant (vs : List VoteRec) (m : List (String × Int))
    (i j : Nat) (vi vj : VoteRec) (hvi : vs[i]? = some vi) (hvj : vs[j]? = some vj)
    (hij : i < j) (hnum : vi.num = vj.num) (hvoter : vi.voter = vj.voter) :
    err3 vs m j = some 5 ∧
    (vj.voter ≠ "" → vj.voter ≠ vj.creator → voteError vs m j = some 5) ∧
    ((¬ ∃ k vk, k < i ∧ vs[k]? = some vk ∧ vk.num = vi.num ∧ vk.voter = vi.voter) →
      err1 vs m i = some 0 → vi.voter ≠ "" → vi.voter ≠ vi.creator →
      multiPeer vs m i = false → voteError vs m i = some 0) := by
  have hilen : i < vs.length := by
    rcases List.getElem?_eq_some.mp hvi with ⟨h, _⟩
    exact h
  have hdupj : isDupAt vs j = true := by
    refine List.any_eq_true.mpr ⟨i, List.mem_range.mpr hij, ?_⟩
    rw [hvi, hvj]
    simp [hnum, hvoter]
  have h3j : err3 vs m j = some 5 := by simp [err3, hdupj]
  refine ⟨h3j, ?_, ?_⟩
  · intro hne hnc
    have h5j : err5 vs m j = some 5 := by simp [err5, err4, hvj, hne, hnc, h3j]
    simp [voteError, mask1, hvj, h5j]
  · intro hfirst h1 hne hnc hmp
    have hdupi : isDupAt vs i = false := by
      cases hd : isDupAt vs i with
      | false => rfl
      | true =>
        exfalso
        rcases List.any_eq_true.mp hd with ⟨k, hkmem, hk⟩
        have hklt : k < i := List.mem_range.mp hkmem
        have hvk : vs[k]? = some vs[k] := List.getElem?_eq_getElem (hklt.trans hilen)
        rw [hvk, hvi] at hk
        simp only [Bool.and_eq_true, beq_iff_eq] at hk
        exact hfirst ⟨k, vs[k], hklt, hvk, hk.1, hk.2⟩
    have h2 : err2 vs m i = some 0 := by
      rw [err2_some vs m i vi hvi 0 h1]
      simp
    have h3 : err3 vs m i = some 0 := by simp [err3, hdupi, h2]
    have h5 : err5 vs m i = some 0 := by simp [err5, err4, hvi, hne, hnc, h3]
    simp [voteError, hmp, h5]

/-- Witness for C8 at the concrete duplicate round: Bob's second vote ends
with error 5, his first with error 0. -/
theorem duplicate_vote_invariant_witness :
    voteError dupVotes multiTab 1 = some 5 ∧ voteError dupVotes multiTab 0 = some 0 := by
  have h := duplicate_vote_invariant dupVotes multiTab 0 1
    ⟨"1", 3, "Bob", "Alice", ""⟩ ⟨"1", 3, "Bob", "Alice", ""⟩ rfl rfl (by decide) rfl rfl
  refine ⟨h.2.1 (by decide) (by decide), h.2.2 ?_ (by decide) (by decide) (by decide) (by decide)⟩
  rintro ⟨k, vk, hk, -⟩
  exact absurd hk (Nat.not_lt_zero k)

/-- C1: evaluation of the scoring engine at the worked §8 round.  The
cascade marks the three votes exactly as the spec expects (accepted,
`DUPLICATE_VOTE`, `SELF_VOTE`), but because `count_votes` filters the vote
rows with `error >= 0` — which keeps every vote, disqualified or not — the
entry is scored over all three votes: `score = 7` and `support = 3`
instead of the specified `score = 3`, `support = 1`. -/
theorem count_votes_counts_disqualified_votes :
    voteError exVotes exVoterTab 0 = some 0 ∧
    voteError exVotes exVoterTab 1 = some 5 ∧
    voteError exVotes exVoterTab 2 = some 7 ∧
    (exScored[0]!).num = "1" ∧
    (exScored[0]!).score = 7 ∧ (exScored[0]!).support = 3 ∧
    ¬((exScored[0]!).score = 3 ∧ (exScored[0]!).support = 1) := by decide

/-- C2 counterexample: in the tie round, entries 1 and 2 tie at score 5 /
support 2 and share rank 1, but entry 3 — the next strictly smaller key —
receives rank 3, not the dense rank 2 claimed (`method="min"` competition
ranking skips as many ranks as there were ties). -/
theorem rank_not_dense_counterexample :
    rawScore tieCvs "1" = some 5 ∧ rawSupport tieCvs "1" = some 2 ∧
    rawScore tieCvs "2" = some 5 ∧ rawSupport tieCvs "2" = some 2 ∧
    rawScore tieCvs "3" = some 4 ∧ rawSupport tieCvs "3" = some 2 ∧
    rankOf tieCvs tieFiles ⟨"1", "a", "", "A"⟩ = 1 ∧
    rankOf tieCvs tieFiles ⟨"2", "b", "", "B"⟩ = 1 ∧
    rankOf tieCvs tieFiles ⟨"3", "c", "", "C"⟩ = 3 ∧
    rankOf tieCvs tieFiles ⟨"3", "c", "", "C"⟩ ≠
      rankOf tieCvs tieFiles ⟨"1", "a", "", "A"⟩ + 1 := by
  have h1 : score2 tieCvs [⟨"1", "a", "", "A"⟩, ⟨"2", "b", "", "B"⟩, ⟨"3", "c", "", "C"⟩]
      ⟨"1", "a", "", "A"⟩ = some ((5 : ℚ) + (2 : ℚ) / ((2 : ℚ) + 1)) := by
    have ha : rawScore tieCvs "1" = some 5 := by decide
    have hb : rawSupport tieCvs "1" = some 2 := by decide
    have hc : maxSupport tieCvs
        [⟨"1", "a", "", "A"⟩, ⟨"2", "b", "", "B"⟩, ⟨"3", "c", "", "C"⟩] = some 2 := by decide
    simp [score2, ha, hb, hc]
  have h2 : score2 tieCvs [⟨"1", "a", "", "A"⟩, ⟨"2", "b", "", "B"⟩, ⟨"3", "c", "", "C"⟩]
      ⟨"2", "b", "", "B"⟩ = some ((5 : ℚ) + (2 : ℚ) / ((2 : ℚ) + 1)) := by
    have ha : rawScore tieCvs "2" = some 5 := by decide
    have hb : rawSupport tieCvs "2" = some 2 := by decide
    have hc : maxSupport tieCvs
        [⟨"1", "a", "", "A"⟩, ⟨"2", "b", "", "B"⟩, ⟨"3", "c", "", "C"⟩] = some 2 := by decide
    simp [score2, ha, hb, hc]
  have h3 : score2 tieCvs [⟨"1", "a", "", "A"⟩, ⟨"2", "b", "", "B"⟩, ⟨"3", "c", "", "C"⟩]
      ⟨"3", "c", "", "C"⟩ = some ((4 : ℚ) + (2 : ℚ) / ((2 : ℚ) + 1)) := by
    have ha : rawScore tieCvs "3" = some 4 := by decide
    have hb : rawSupport tieCvs "3" = some 2 := by decide
    have hc : maxSupport tieCvs
        [⟨"1", "a", "", "A"⟩, ⟨"2", "b", "", "B"⟩, ⟨"3", "c", "", "C"⟩] = some 2 := by decide
    simp [score2, ha, hb, hc]
  refine ⟨by decide, by decide, by decide, by decide, by decide, by decide, ?_, ?_, ?_, ?_⟩
  · show rankOf tieCvs [⟨"1", "a", "", "A"⟩, ⟨"2", "b", "", "B"⟩, ⟨"3", "c", "", "C"⟩]
      ⟨"1", "a", "", "A"⟩ = 1
    norm_num [rankOf, h1, h2, h3, List.countP_cons, keyGT]
  · show rankOf tieCvs [⟨"1", "a", "", "A"⟩, ⟨"2", "b", "", "B"⟩, ⟨"3", "c", "", "C"⟩]
      ⟨"2", "b", "", "B"⟩ = 1
    norm_num [rankOf, h1, h2, h3, List.countP_cons, keyGT]
  · show rankOf tieCvs [⟨"1", "a", "", "A"⟩, ⟨"2", "b", "", "B"⟩, ⟨"3", "c", "", "C"⟩]
      ⟨"3", "c", "", "C"⟩ = 3
    norm_num [rankOf, h1, h2, h3, List.countP_cons, keyGT]
  · show rankOf tieCvs [⟨"1", "a", "", "A"⟩, ⟨"2", "b", "", "B"⟩, ⟨"3", "c", "", "C"⟩]
        ⟨"3", "c", "", "C"⟩ ≠
      rankOf tieCvs [⟨"1", "a", "", "A"⟩, ⟨"2", "b", "", "B"⟩, ⟨"3", "c", "", "C"⟩]
        ⟨"1", "a", "", "A"⟩ + 1
    norm_num [rankOf, h1, h2, h3, List.countP_cons, keyGT]

/-- C3 counterexample: entry 1 of the no-vote round scores 3 with rank 1
while the vote-less entry 2 scores 0 with rank 0 (its `NaN` rank is filled
with 0), so `score(a) > score(b)` holds with `rank(a) > rank(b)`,
refuting monotonicity over all entries. -/
theorem rank_monotonicity_fails_on_unranked_entries :
    (rawScore noVoteCvs "1").getD 0 = 3 ∧ (rawScore noVoteCvs "2").getD 0 = 0 ∧
    rankOf noVoteCvs noVoteFiles ⟨"1", "a", "", "A"⟩ = 1 ∧
    rankOf noVoteCvs noVoteFiles ⟨"2", "b", "", "B"⟩ = 0 ∧
    ¬(rankOf noVoteCvs noVoteFiles ⟨"1", "a", "", "A"⟩ ≤
      rankOf noVoteCvs noVoteFiles ⟨"2", "b", "", "B"⟩) := by
  have hs : score2 noVoteCvs [⟨"1", "a", "", "A"⟩, ⟨"2", "b", "", "B"⟩] ⟨"1", "a", "", "A"⟩ =
      some ((3 : ℚ) + (1 : ℚ) / ((1 : ℚ) + 1)) := by
    have h1 : rawScore noVoteCvs "1" = some 3 := by decide
    have h2 : rawSupport noVoteCvs "1" = some 1 := by decide
    have h3 : maxSupport noVoteCvs [⟨"1", "a", "", "A"⟩, ⟨"2", "b", "", "B"⟩] = some 1 := by
      decide
    simp [score2, h1, h2, h3]
  have hn : score2 noVoteCvs [⟨"1", "a", "", "A"⟩, ⟨"2", "b", "", "B"⟩] ⟨"2", "b", "", "B"⟩ =
      none := by decide
  have hr : rankOf noVoteCvs noVoteFiles ⟨"1", "a", "", "A"⟩ = 1 := by
    show rankOf noVoteCvs [⟨"1", "a", "", "A"⟩, ⟨"2", "b", "", "B"⟩] ⟨"1", "a", "", "A"⟩ = 1
    simp [rankOf, hs, List.countP_cons, keyGT, hn]
  exact ⟨by decide, by decide, hr, by decide, by simp [hr]; decide⟩

/-- Helper: `countP` is monotone under pointwise implication on the list. -/
theorem countP_le_of_imp {α : Type} (p q : α → Bool) (l : List α)
    (h : ∀ a ∈ l, p a = true → q a = true) : l.countP p ≤ l.countP q := by
  induction l with
  | nil => simp
  | cons a l ih =>
    rw [List.countP_cons, List.countP_cons]
    have h2 := ih (fun b hb => h b (List.mem_cons_of_mem a hb))
    have h3 : (if p a then 1 else 0) ≤ (if q a then 1 else 0) := by
      cases hp : p a with
      | false => simp
      | true => rw [h a (List.mem_cons_self a l) hp]
    omega

/-- Helper: strict `countP` monotonicity given a member satisfying the
larger predicate only. -/
theorem countP_lt_of_imp {α : Type} (p q : α → Bool) (l : List α) (b : α) (hb : b ∈ l)
    (h : ∀ a ∈ l, p a = true → q a = true) (hqb : q b = true) (hpb : p b = false) :
    l.countP p < l.countP q := by
  induction l with
  | nil => cases hb
  | cons a l ih =>
    rw [List.countP_cons, List.countP_cons]
    have hmono := countP_le_of_imp p q l (fun c hc => h c (List.mem_cons_of_mem a hc))
    rcases List.mem_cons.mp hb with rfl | hbl
    · rw [hpb, hqb]
      simp only [Bool.false_eq_true, if_false, if_true]
      omega
    · have hlt := ih hbl (fun c hc => h c (List.mem_cons_of_mem a hc))
      have h3 : (if p a then 1 else 0) ≤ (if q a then 1 else 0) := by
        cases hp : p a with
        | false => simp
        | true => rw [h a (List.mem_cons_self a l) hp]
      omega

/-- Helper: `countP` splits over a pointwise disjoint disjunction. -/
theorem countP_split {α : Type} (p q r : α → Bool) (l : List α)
    (h : ∀ a ∈ l, p a = (q a || r a)) (hdisj : ∀ a ∈ l, ¬(q a = true ∧ r a = true)) :
    l.countP p = l.countP q + l.countP r := by
  induction l with
  | nil => simp
  | cons a l ih =>
    rw [List.countP_cons, List.countP_cons, List.countP_cons]
    have hrec := ih (fun c hc => h c (List.mem_cons_of_mem a hc))
      (fun c hc => hdisj c (List.mem_cons_of_mem a hc))
    have ha := h a (List.mem_cons_self a l)
    have hd := hdisj a (List.mem_cons_self a l)
    cases hq : q a with
    | true =>
      cases hrr : r a with
      | true => exact absurd ⟨hq, hrr⟩ hd
      | false =>
        rw [ha, hq, hrr]
        simp only [Bool.or_false, if_true, Bool.false_eq_true, if_false]
        omega
    | false =>
      cases hrr : r a with
      | true =>
        rw [ha, hq, hrr]
        simp only [Bool.false_or, if_true, Bool.false_eq_true, if_false]
        omega
      | false =>
        rw [ha, hq, hrr]
        simp only [Bool.or_self, Bool.false_eq_true, if_false]
        omega

/-- Helper: every member of a list is bounded by its `listMaxNat`. -/
theorem le_listMaxNat_of_mem (l : List Nat) (a : Nat) (ha : a ∈ l) :
    ∃ M, listMaxNat l = some M ∧ a ≤ M := by
  induction l with
  | nil => cases ha
  | cons b l ih =>
    rcases List.mem_cons.mp ha with rfl | hal
    · cases hm : listMaxNat l with
      | none => exact ⟨a, by simp [listMaxNat, hm], le_refl a⟩
      | some c => exact ⟨max a c, by simp [listMaxNat, hm], le_max_left a c⟩
    · rcases ih hal with ⟨M, hM, haM⟩
      exact ⟨max b M, by simp [listMaxNat, hM], le_trans haM (le_max_right b M)⟩

/-- Helper: the tie-break key of an entry with present score and support. -/
theorem score2_eq (cvs : List CVote) (files : List FileRec) (f : FileRec)
    (sf : Int) (cf : Nat) (M : Nat)
    (hsf : rawScore cvs f.num = some sf) (hcf : rawSupport cvs f.num = some cf)
    (hM : maxSupport cvs files = some M) :
    score2 cvs files f = some ((sf : ℚ) + (cf : ℚ) / ((M : ℚ) + 1)) := by
  simp [score2, hsf, hcf, hM]

/-- Helper: a present support cell of a listed entry is bounded by the
column maximum. -/
theorem support_le_maxSupport (cvs : List CVote) (files : List FileRec) (f : FileRec)
    (cf : Nat) (hf : f ∈ files) (hcf : rawSupport cvs f.num = some cf) :
    ∃ M, maxSupport cvs files = some M ∧ cf ≤ M :=
  le_listMaxNat_of_mem _ cf (List.mem_filterMap.mpr ⟨f, hf, hcf⟩)

/-- Helper: the key ordering under bounded supports follows the
lexicographic `(score, support)` ordering. -/
theorem key_lt_of_pair_lt (sf sg : Int) (cf cg M : Nat) (hcf : cf ≤ M) (hcg : cg ≤ M)
    (h : sf < sg ∨ (sf = sg ∧ cf < cg)) :
    (sf : ℚ) + (cf : ℚ) / ((M : ℚ) + 1) < (sg : ℚ) + (cg : ℚ) / ((M : ℚ) + 1) := by
  have hMpos : (0 : ℚ) < (M : ℚ) + 1 := by positivity
  rcases h with h | ⟨rfl, h⟩
  · have h1 : (cf : ℚ) / ((M : ℚ) + 1) < 1 := by
      rw [div_lt_one hMpos]
      have hm : (cf : ℚ) ≤ (M : ℚ) := by exact_mod_cast hcf
      linarith
    have h2 : (0 : ℚ) ≤ (cg : ℚ) / ((M : ℚ) + 1) := by positivity
    have h3 : (sf : ℚ) + 1 ≤ (sg : ℚ) := by exact_mod_cast Int.add_one_le_iff.mpr h
    linarith
  · have h4 : (cf : ℚ) / ((M : ℚ) + 1) < (cg : ℚ) / ((M : ℚ) + 1) :=
      (div_lt_div_iff_of_pos_right hMpos).mpr (by exact_mod_cast h)
    linarith

/-- Helper: exact characterisation of the strict key ordering. -/
theorem key_lt_key (sf sg : Int) (cf cg M : Nat) (hcf : cf ≤ M) (hcg : cg ≤ M) :
    ((sf : ℚ) + (cf : ℚ) / ((M : ℚ) + 1) < (sg : ℚ) + (cg : ℚ) / ((M : ℚ) + 1)) ↔
      (sf < sg ∨ (sf = sg ∧ cf < cg)) := by
  constructor
  · intro h
    by_contra hno
    push_neg at hno
    rcases hno with ⟨h1, h2⟩
    rcases eq_or_lt_of_le h1 with heq | hlt
    · have hcle : cg ≤ cf := h2 heq.symm
      rcases eq_or_lt_of_le hcle with hceq | hclt
      · rw [heq, hceq] at h
        exact lt_irrefl _ h
      · exact absurd h (lt_asymm (key_lt_of_pair_lt sg sf cg cf M hcg hcf
          (Or.inr ⟨heq, hclt⟩)))
    · exact absurd h (lt_asymm (key_lt_of_pair_lt sg sf cg cf M hcg hcf (Or.inl hlt)))
  · exact key_lt_of_pair_lt sf sg cf cg M hcf hcg

/-- Helper: the rank of an entry with a present key counts the strictly
greater keys. -/
theorem rankOf_eq (cvs : List CVote) (files : List FileRec) (f : FileRec) (q : ℚ)
    (h : score2 cvs files f = some q) :
    rankOf cvs files f = 1 + files.countP (keyGT cvs files q) := by
  simp [rankOf, h]

/-- C3 (amended): restricted to entries whose score and support cells are
present (entries with at least one counted vote), the ranking is monotone:
a strictly greater score gives a rank at most as large, and with equal
scores a strictly greater support gives a strictly smaller rank.  (Entries
with no counted votes receive the fill-in rank 0 and escape the claim.) -/
theorem rank_monotone_on_voted_entries (cvs : List CVote) (files : List FileRec)
    (f g : FileRec) (sf sg : Int) (cf cg : Nat)
    (hf : f ∈ files) (hg : g ∈ files)
    (hsf : rawScore cvs f.num = some sf) (hcf : rawSupport cvs f.num = some cf)
    (hsg : rawScore cvs g.num = some sg) (hcg : rawSupport cvs g.num = some cg) :
    (sg < sf → rankOf cvs files f ≤ rankOf cvs files g) ∧
    (sf = sg → cg < cf → rankOf cvs files f < rankOf cvs files g) := by
  rcases support_le_maxSupport cvs files f cf hf hcf with ⟨M, hM, hcfM⟩
  rcases support_le_maxSupport cvs files g cg hg hcg with ⟨M', hM', hcgM⟩
  rw [hM] at hM'
  obtain rfl : M = M' := Option.some.inj hM'
  have hqf := score2_eq cvs files f sf cf M hsf hcf hM
  have hqg := score2_eq cvs files g sg cg M hsg hcg hM
  have hmono : ∀ hkey : (sg : ℚ) + (cg : ℚ) / ((M : ℚ) + 1) <
      (sf : ℚ) + (cf : ℚ) / ((M : ℚ) + 1),
      ∀ x ∈ files, keyGT cvs files ((sf : ℚ) + (cf : ℚ) / ((M : ℚ) + 1)) x = true →
        keyGT cvs files ((sg : ℚ) + (cg : ℚ) / ((M : ℚ) + 1)) x = true := by
    intro hkey x _ hgt
    simp only [keyGT] at hgt ⊢
    cases hs : score2 cvs files x with
    | none => simp_all
    | some r =>
      rw [hs] at hgt
      simp only [decide_eq_true_eq] at hgt
      exact decide_eq_true (lt_trans hkey hgt)
  constructor
  · intro hlt
    have hkey := key_lt_of_pair_lt sg sf cg cf M hcgM hcfM (Or.inl hlt)
    rw [rankOf_eq cvs files f _ hqf, rankOf_eq cvs files g _ hqg]
    exact Nat.add_le_add_left (countP_le_of_imp _ _ files (hmono hkey)) 1
  · intro heq hclt
    have hkey := key_lt_of_pair_lt sg sf cg cf M hcgM hcfM (Or.inr ⟨heq.symm, hclt⟩)
    rw [rankOf_eq cvs files f _ hqf, rankOf_eq cvs files g _ hqg]
    have hwq : keyGT cvs files ((sg : ℚ) + (cg : ℚ) / ((M : ℚ) + 1)) f = true := by
      simp only [keyGT]
      rw [hqf]
      exact decide_eq_true hkey
    have hwp : keyGT cvs files ((sf : ℚ) + (cf : ℚ) / ((M : ℚ) + 1)) f = false := by
      simp only [keyGT]
      rw [hqf]
      simp
    exact Nat.add_lt_add_left (countP_lt_of_imp _ _ files f hf (hmono hkey) hwq hwp) 1

/-- Witness for the amended C3 at the monotonicity round: entry 1
(score 3, support 3) ranks before entry 3 (score 1) and strictly before
entry 2 (score 3, support 1). -/
theorem rank_monotone_on_voted_entries_witness :
    rankOf monCvs monFiles ⟨"1", "a", "", "A"⟩ ≤ rankOf monCvs monFiles ⟨"3", "c", "", "C"⟩ ∧
    rankOf monCvs monFiles ⟨"1", "a", "", "A"⟩ < rankOf monCvs monFiles ⟨"2", "b", "", "B"⟩ := by
  constructor
  · exact (rank_monotone_on_voted_entries monCvs monFiles ⟨"1", "a", "", "A"⟩
      ⟨"3", "c", "", "C"⟩ 3 1 3 1 (by decide) (by decide)
      (by decide) (by decide) (by decide) (by decide)).1 (by decide)
  · exact (rank_monotone_on_voted_entries monCvs monFiles ⟨"1", "a", "", "A"⟩
      ⟨"2", "b", "", "B"⟩ 3 3 3 1 (by decide) (by decide)
      (by decide) (by decide) (by decide) (by decide)).2 rfl (by decide)

/-- C2 (amended): the ranking is min/competition rank, not dense rank.
Entries with equal score and support (hence an identical tie-break key)
share a rank; the entry holding the next strictly smaller key receives the
shared rank plus the number of tied entries — one more than the count of
strictly greater keys — rather than the shared rank plus one. -/
theorem rank_min_rank_ties (cvs : List CVote) (files : List FileRec)
    (a c : FileRec) (qa qc : ℚ) (ha : a ∈ files) (hc : c ∈ files)
    (hqa : score2 cvs files a = some qa) (hqc : score2 cvs files c = some qc)
    (hlt : qc < qa)
    (hnb : ∀ g ∈ files, ∀ r : ℚ, score2 cvs files g = some r → ¬(qc < r ∧ r < qa)) :
    (∀ b : FileRec, rawScore cvs b.num = rawScore cvs a.num →
      rawSupport cvs b.num = rawSupport cvs a.num →
      rankOf cvs files b = rankOf cvs files a) ∧
    (∀ b : FileRec, score2 cvs files b = some qa →
      rankOf cvs files b = rankOf cvs files a) ∧
    rankOf cvs files c = rankOf cvs files a + files.countP (keyEQ cvs files qa) := by
  have hshare : ∀ b : FileRec, score2 cvs files b = some qa →
      rankOf cvs files b = rankOf cvs files a := by
    intro b hb
    rw [rankOf_eq cvs files b qa hb, rankOf_eq cvs files a qa hqa]
  refine ⟨?_, hshare, ?_⟩
  · intro b hsb hcb
    have hb : score2 cvs files b = some qa := by
      have : score2 cvs files b = score2 cvs files a := by
        simp only [score2, hsb, hcb]
      rw [this, hqa]
    exact hshare b hb
  · rw [rankOf_eq cvs files c qc hqc, rankOf_eq cvs files a qa hqa]
    have hsplit : files.countP (keyGT cvs files qc) =
        files.countP (keyGT cvs files qa) + files.countP (keyEQ cvs files qa) := by
      apply countP_split
      · intro g hg
        cases hs : score2 cvs files g with
        | none => simp [keyGT, keyEQ, hs]
        | some r =>
          simp only [keyGT, keyEQ, hs, Option.some.injEq]
          rcases lt_trichotomy r qa with hr | hr | hr
          · have h1 : ¬(qa < r) := lt_asymm hr
            have h2 : ¬(r = qa) := ne_of_lt hr
            have h3 : ¬(qc < r) := fun hqcr => hnb g hg r hs ⟨hqcr, hr⟩
            simp [h1, h2, h3]
          · subst hr
            simp [hlt]
          · have h2 : ¬(r = qa) := ne_of_gt hr
            have h3 : qc < r := lt_trans hlt hr
            simp [hr, h2, h3]
      · intro g _
        rintro ⟨h1, h2⟩
        simp only [keyEQ, decide_eq_true_eq] at h2
        simp only [keyGT, h2, decide_eq_true_eq] at h1
        exact lt_irrefl qa h1
    omega

/-- Witness for the amended C2 at the tie round: entries 1 and 2 share a
rank, and entry 3 receives that rank plus the number of entries holding
the tied key. -/
theorem rank_min_rank_ties_witness :
    rankOf tieCvs tieFiles ⟨"2", "b", "", "B"⟩ = rankOf tieCvs tieFiles ⟨"1", "a", "", "A"⟩ ∧
    rankOf tieCvs tieFiles ⟨"3", "c", "", "C"⟩ = rankOf tieCvs tieFiles ⟨"1", "a", "", "A"⟩ +
      tieFiles.countP (keyEQ tieCvs tieFiles ((5 : ℚ) + (2 : ℚ) / ((2 : ℚ) + 1))) := by
  have hq1 := score2_eq tieCvs tieFiles ⟨"1", "a", "", "A"⟩ 5 2 2
    (by decide) (by decide) (by decide)
  have hq2 := score2_eq tieCvs tieFiles ⟨"2", "b", "", "B"⟩ 5 2 2
    (by decide) (by decide) (by decide)
  have hq3 := score2_eq tieCvs tieFiles ⟨"3", "c", "", "C"⟩ 4 2 2
    (by decide) (by decide) (by decide)
  have h := rank_min_rank_ties tieCvs tieFiles ⟨"1", "a", "", "A"⟩ ⟨"3", "c", "", "C"⟩
    ((5 : ℚ) + (2 : ℚ) / ((2 : ℚ) + 1)) ((4 : ℚ) + (2 : ℚ) / ((2 : ℚ) + 1))
    (by decide) (by decide) hq1 hq3 (by norm_num) ?hnb
  case hnb =>
    intro g hg r hr
    have hg3 : g = ⟨"1", "a", "", "A"⟩ ∨ g = ⟨"2", "b", "", "B"⟩ ∨ g = ⟨"3", "c", "", "C"⟩ := by
      simpa [tieFiles] using hg
    rcases hg3 with rfl | rfl | rfl
    · rw [hq1] at hr
      rw [← Option.some.inj hr]
      intro hand
      exact absurd hand.2 (by norm_num)
    · rw [hq2] at hr
      rw [← Option.some.inj hr]
      intro hand
      exact absurd hand.2 (by norm_num)
    · rw [hq3] at hr
      rw [← Option.some.inj hr]
      intro hand
      exact absurd hand.1 (by norm_num)
  exact ⟨h.2.1 ⟨"2", "b", "", "B"⟩ hq2, h.2.2⟩

/-- C4 counterexample: on a document whose first line is a Creator line,
before any `===` section header, `parse_voting_page` reads the unassigned
`num`/`fname`/`title` locals and raises `UnboundLocalError` (the model
returns `none`), refuting totality on arbitrary input. -/
theorem parse_raises_on_creator_before_header :
    parse_voting_page creatorFirstDoc = none := by decide

/-- Helper: from a fully assigned context every loop branch succeeds and
keeps the context fully assigned. -/
theorem parseStepCore_full (st1 : ParseState) (lc : List Char) (h : ctxFull st1.ctx) :
    ∃ st', parseStepCore st1 lc = some st' ∧ ctxFull st'.ctx := by
  obtain ⟨hn, hf, ht, hc⟩ := h
  rcases Option.isSome_iff_exists.mp hn with ⟨n, hn⟩
  rcases Option.isSome_iff_exists.mp hf with ⟨fn, hf⟩
  rcases Option.isSome_iff_exists.mp ht with ⟨t, ht⟩
  rcases Option.isSome_iff_exists.mp hc with ⟨cr, hc⟩
  unfold parseStepCore
  rw [hn, hf, ht, hc]
  by_cases h1 : containsSeq ("[[File:".toList) lc
  · simp only [h1, if_true]
    refine ⟨_, rfl, ?_, ?_, ?_, ?_⟩
    · simp [hn]
    · simp
    · split <;> simp [ht]
    · simp [hc]
  · simp only [h1, Bool.false_eq_true, if_false]
    by_cases h2 : (("<!-- '''C".toList).isPrefixOf lc || ("'''C".toList).isPrefixOf lc) = true
    · simp only [h2, if_true]
      exact ⟨_, rfl, by simp [ctxFull, hn], by simp [ctxFull, hf], by simp [ctxFull, ht],
        by simp [ctxFull]⟩
    · simp only [h2, Bool.false_eq_true, if_false]
      by_cases h3 : containsSeq ("*\x7d\x7d".toList) lc
      · simp only [h3, if_true]
        by_cases h4 : fn = "Sample-image.svg"
        · simp only [h4, if_true]
          exact ⟨st1, rfl, by simp [ctxFull, hn], by simp [ctxFull, hf],
            by simp [ctxFull, ht], by simp [ctxFull, hc]⟩
        · simp only [h4, if_false]
          cases hA : findAward lc with
          | none =>
            exact ⟨st1, rfl, by simp [ctxFull, hn], by simp [ctxFull, hf],
              by simp [ctxFull, ht], by simp [ctxFull, hc]⟩
          | some d =>
            exact ⟨_, rfl, by simp [ctxFull, hn], by simp [ctxFull, hf],
              by simp [ctxFull, ht], by simp [ctxFull, hc]⟩
      · simp only [h3, Bool.false_eq_true, if_false]
        exact ⟨st1, rfl, by simp [ctxFull, hn], by simp [ctxFull, hf],
          by simp [ctxFull, ht], by simp [ctxFull, hc]⟩

/-- Helper: a line that is neither a Creator line nor contains the award
close marker never fails a loop step, whatever the context. -/
theorem parseStepCore_safe (st1 : ParseState) (lc : List Char)
    (h2 : isCreatorL lc = false) (h3 : hasVoteMarker lc = false) :
    ∃ st', parseStepCore st1 lc = some st' := by
  unfold isCreatorL at h2
  unfold hasVoteMarker at h3
  unfold parseStepCore
  by_cases h1 : containsSeq ("[[File:".toList) lc
  · simp only [h1, if_true]
    exact ⟨_, rfl⟩
  · simp only [h1, Bool.false_eq_true, if_false, h2, h3]
    exact ⟨st1, rfl⟩

/-- Helper: after a `===` header line the step succeeds with a fully
assigned context. -/
theorem parseStep_header (st : ParseState) (l : String)
    (hh : ("===".toList).isPrefixOf (trimChars l.toList) = true) :
    ∃ st', parseStep st l = some st' ∧ ctxFull st'.ctx := by
  unfold parseStep
  simp only [hh, if_true]
  exact parseStepCore_full _ _ ⟨by simp, by simp, by simp, by simp⟩

/-- Helper: from a fully assigned context every step succeeds, preserving
full assignment. -/
theorem parseStep_full (st : ParseState) (l : String) (h : ctxFull st.ctx) :
    ∃ st', parseStep st l = some st' ∧ ctxFull st'.ctx := by
  unfold parseStep
  by_cases hh : ("===".toList).isPrefixOf (trimChars l.toList)
  · simp only [hh, if_true]
    exact parseStepCore_full _ _ ⟨by simp, by simp, by simp, by simp⟩
  · simp only [hh, Bool.false_eq_true, if_false]
    exact parseStepCore_full _ _ h

/-- Helper: the loop never fails once the context is fully assigned. -/
theorem foldlM_parseStep_full (lines : List String) (st : ParseState) (h : ctxFull st.ctx) :
    ∃ st', List.foldlM parseStep st lines = some st' := by
  induction lines generalizing st with
  | nil => exact ⟨st, rfl⟩
  | cons l ls ih =>
    rcases parseStep_full st l h with ⟨st1, hst1, hfull⟩
    rcases ih st1 hfull with ⟨st', hst'⟩
    refine ⟨st', ?_⟩
    rw [List.foldlM_cons, hst1]
    exact hst'

/-- Helper: the loop never fails when every line before the first header
is neither a Creator line nor carries the award close marker. -/
theorem foldlM_parseStep_safe (lines : List String) (st : ParseState)
    (h : ∀ l ∈ lines.takeWhile
        (fun l => !(("===".toList).isPrefixOf (trimChars l.toList))),
      isCreatorL (trimChars l.toList) = false ∧ hasVoteMarker (trimChars l.toList) = false) :
    ∃ st', List.foldlM parseStep st lines = some st' := by
  induction lines generalizing st with
  | nil => exact ⟨st, rfl⟩
  | cons l ls ih =>
    by_cases hh : ("===".toList).isPrefixOf (trimChars l.toList)
    · rcases parseStep_header st l hh with ⟨st1, hst1, hfull⟩
      rcases foldlM_parseStep_full ls st1 hfull with ⟨st', hst'⟩
      refine ⟨st', ?_⟩
      rw [List.foldlM_cons, hst1]
      exact hst'
    · have htk : (l :: ls).takeWhile
          (fun l => !(("===".toList).isPrefixOf (trimChars l.toList))) =
          l :: ls.takeWhile (fun l => !(("===".toList).isPrefixOf (trimChars l.toList))) := by
        rw [List.takeWhile_cons_of_pos]
        simp only [Bool.not_eq_true']
        exact Bool.eq_false_iff.mpr hh
      have hsafe := h l (by rw [htk]; exact List.mem_cons_self l _)
      have hstep : ∃ st1, parseStep st l = some st1 := by
        unfold parseStep
        simp only [hh, Bool.false_eq_true, if_false]
        exact parseStepCore_safe _ _ hsafe.1 hsafe.2
      rcases hstep with ⟨st1, hst1⟩
      rcases ih st1 (fun l' hl' => h l' (by rw [htk]; exact List.mem_cons_of_mem l hl')) with
        ⟨st', hst'⟩
      refine ⟨st', ?_⟩
      rw [List.foldlM_cons, hst1]
      exact hst'

/-- C4 (amended): `parse_voting_page` completes without raising on every
document in which no Creator line and no line containing the award close
marker `*}}` occurs before the first `===` section header; a Creator or
vote-candidate line before the first header instead raises
`UnboundLocalError` (see the counterexample). -/
theorem parse_total_after_first_header (lines : List String)
    (h : ∀ l ∈ lines.takeWhile
        (fun l => !(("===".toList).isPrefixOf (trimChars l.toList))),
      isCreatorL (trimChars l.toList) = false ∧ hasVoteMarker (trimChars l.toList) = false) :
    (parse_voting_page lines).isSome = true := by
  rcases foldlM_parseStep_safe lines initState h with ⟨st', hst'⟩
  unfold parse_voting_page
  rw [hst']
  rfl

/-- Witness for the amended C4 at a well-formed document. -/
theorem parse_total_after_first_header_witness : (parse_voting_page normalDoc).isSome = true :=
  parse_total_after_first_header normalDoc (by decide)

end PhotoChallenge
